import Mathlib

/-!
# Verification of the gsip SIP parser core

Shallow embedding of the parser source (`parser.go`, forked from gossip) into
Lean 4, together with theorems settling the frozen claims about it.

Modelling conventions:
* Go strings are `List Char` (the source operates byte-wise on ASCII input;
  we identify bytes with characters).
* Fallible Go code returns `Except PFail _`; `PFail.panic` marks a Go runtime
  panic (out-of-range slice index, failed type assertion), `PFail.err` an
  ordinary returned error.  Go error message strings are abstracted away.
* Code of the repository that is not under src/ (the parser buffer, the
  body-length channel, `Params`, the header `Name()` methods, `NewResponse`,
  `CreateSimpleRequest`, `parseAuthorization`) is modelled from the spec; each
  such definition is marked `Modelled from the spec:` in its doc comment.
-/

set_option linter.unusedVariables false

namespace Gsip

/-- Go strings as character lists. -/
abbrev Str := List Char

/-- Shorthand to turn a Lean string literal into a modelled Go string. -/
def str (s : String) : Str := s.data

/-- Membership of a character in `abnfWs = " \t"` (RFC 3261 ABNF whitespace),
i.e. Go `strings.Contains(abnfWs, string(c))`. -/
def isAbnfWs (c : Char) : Bool := c == ' ' || c == '\t'

/-- Go's `unicode.IsSpace` on the Latin-1 range (all inputs in this
development are ASCII).  Used by `strings.TrimSpace`. -/
def goIsSpace (c : Char) : Bool :=
  c == ' ' || c == '\t' || c == '\n' || c == '\x0B' || c == '\x0C' || c == '\r'
    || c == '\u0085' || c == '\u00A0'

/-- Go `strings.TrimSpace`. -/
def goTrimSpace (s : Str) : Str :=
  ((s.dropWhile goIsSpace).reverse.dropWhile goIsSpace).reverse

/-- Go `strings.Index(s, string(t))` for a one-character pattern, as an
optional index (`none` models Go's `-1`). -/
def idxOf : Str → Char → Option Nat
  | [], _ => none
  | c :: rest, t => if c = t then some 0 else (idxOf rest t).map (· + 1)

/-- Go `strings.IndexAny(s, ts)`. -/
def idxAny : Str → List Char → Option Nat
  | [], _ => none
  | c :: rest, ts => if ts.contains c then some 0 else (idxAny rest ts).map (· + 1)

/-- Go `strings.Count(s, string(t))` for a single character. -/
def countChar (s : Str) (t : Char) : Nat := (s.filter (· == t)).length

/-- Go `strings.Split(s, string(t))` for a single-character separator. -/
def goSplit (t : Char) : Str → List Str
  | [] => [[]]
  | c :: rest =>
    match goSplit t rest with
    | [] => []
    | h :: tl => if c = t then [] :: h :: tl else (c :: h) :: tl

/-- Go `strings.Join(parts, string(t))` for a single-character separator. -/
def joinChar (t : Char) : List Str → Str
  | [] => []
  | [s] => s
  | s :: rest => s ++ t :: joinChar t rest

/-- Go `strings.ToLower` (ASCII). -/
def lowerStr (s : Str) : Str := s.map Char.toLower

/-- Go `strings.ToUpper` (ASCII). -/
def upperStr (s : Str) : Str := s.map Char.toUpper

/-- Outcome of a fallible Go computation: an ordinary returned error, or a
runtime panic (out-of-range slice index or failed type assertion). -/
inductive PFail
  | err
  | panic
deriving DecidableEq, Repr

/-- Value of an all-digit string in base 10. -/
def digitsVal (s : Str) : Nat := s.foldl (fun a c => a * 10 + (c.toNat - 48)) 0

/-- Go `strconv.ParseUint(s, 10, bits)`: succeeds exactly on a nonempty
all-digit string whose value fits in `bits` bits. -/
def goParseUint (s : Str) (bits : Nat) : Except PFail Nat :=
  if s ≠ [] ∧ s.all Char.isDigit then
    if digitsVal s < 2 ^ bits then .ok (digitsVal s) else .error .err
  else .error .err

/-- Index of the first `"\r\n\r\n"` in the input (Go
`strings.Index(s, "\r\n\r\n")`). -/
def crlfcrlfIdx : Str → Option Nat
  | '\r' :: '\n' :: '\r' :: '\n' :: _ => some 0
  | _ :: rest => (crlfcrlfIdx rest).map (· + 1)
  | [] => none

/-- Modelled from the spec: the managed input buffer's `next_line` (§4.A),
whose source is not under src/ — "return the next line terminated by CRLF,
without the terminator"; `none` when no full line is available. -/
def nextLine? : Str → Option (Str × Str)
  | '\r' :: '\n' :: rest => some ([], rest)
  | c :: rest => (nextLine? rest).map (fun lr => (c :: lr.1, lr.2))
  | [] => none

/-- Modelled from the spec: the managed input buffer's `next_chunk(n)` (§4.A)
in the quiescent view — returns the next `n` bytes when available. -/
def chunk? (n : Nat) (s : Str) : Option (Str × Str) :=
  if n ≤ s.length then some (s.take n, s.drop n) else none

/-! ## Data model -/

/-- Modelled from the spec: `Params` (§3) — an ordered multimap from parameter
name to optional value; its source is not under src/.  `Add` appends. -/
abbrev Params := List (Str × Option Str)

/-- A host together with an optional port (`ParseHostPort` result). -/
structure HostPort where
  Host : Str
  Port : Option Nat
deriving DecidableEq, Repr

/-- The `SipUri` struct. -/
structure SipUri where
  FIsEncrypted : Bool
  FUser : Option Str
  FPassword : Option Str
  FDomain : HostPort
  FUriParams : Params
  FHeaders : Params
deriving DecidableEq, Repr

/-- The `Uri` sum: a `SipUri` or the wildcard `*` (`WildcardUri`).  The
parsing pipeline produces no other implementation of the Go interface. -/
inductive Uri
  | wildcard
  | sip (u : SipUri)
deriving DecidableEq, Repr

/-- One hop of a `Via` header. -/
structure ViaHop where
  ProtocolName : Str
  ProtocolVersion : Str
  Transport : Str
  Host : Str
  Port : Option Nat
  Pars : Params
deriving DecidableEq, Repr

/-- The closed sum of header variants produced by the registered parsers,
plus the `GenericHeader` fallback. -/
inductive Header
  | generic (name contents : Str)
  | toH (displayName : Option Str) (address : Uri) (params : Params)
  | fromH (displayName : Option Str) (address : Uri) (params : Params)
  | contact (displayName : Option Str) (address : Uri) (params : Params)
  | cseq (seqNo : Nat) (methodName : Str)
  | callId (value : Str)
  | via (hops : List ViaHop)
  | maxForwards (n : Nat)
  | expires (n : Nat)
  | contentLength (n : Nat)
  | userAgent (s : Str)
  | contentType (s : Str)
  | accept (s : Str)
  | allow (methods : List Str)
  | require (options : List Str)
  | supported (options : List Str)
  | route (addresses : List Uri)
  | recordRoute (addresses : List Uri)
  | authorization (params : Params)
deriving DecidableEq, Repr

/-- Modelled from the spec: the `Name()` method of each header type (§3:
"Header names stored on the wire in their original case"); the header type
sources are not under src/. -/
def headerName : Header → Str
  | .generic n _ => n
  | .toH .. => str "To"
  | .fromH .. => str "From"
  | .contact .. => str "Contact"
  | .cseq .. => str "CSeq"
  | .callId .. => str "Call-ID"
  | .via .. => str "Via"
  | .maxForwards .. => str "Max-Forwards"
  | .expires .. => str "Expires"
  | .contentLength .. => str "Content-Length"
  | .userAgent .. => str "User-Agent"
  | .contentType .. => str "Content-Type"
  | .accept .. => str "Accept"
  | .allow .. => str "Allow"
  | .require .. => str "Require"
  | .supported .. => str "Supported"
  | .route .. => str "Route"
  | .recordRoute .. => str "Record-Route"
  | .authorization .. => str "Authorization"

/-- The maximum permissible CSeq number (`maxCseq = 2**31 - 1`). -/
def maxCseq : Nat := 2147483647

/-! ## Generic scanners (`findUnescaped`, `SplitByWhitespace`) -/

/-- The scanning loop of `findAnyUnescaped`: `escaped` and `endEsc` mirror the
Go locals `escaped` / `endEscape`; `endChars` is the delimiter start→end map. -/
def fauGo (targets : Str) (endChars : List (Char × Char)) :
    Str → Bool → Char → Nat → Option Nat
  | [], _, _, _ => none
  | c :: rest, escaped, endEsc, idx =>
    if ¬escaped ∧ targets.contains c then some idx
    else if escaped then fauGo targets endChars rest (c ≠ endEsc) endEsc (idx + 1)
    else
      match endChars.lookup c with
      | some e => fauGo targets endChars rest true e (idx + 1)
      | none => fauGo targets endChars rest false (Char.ofNat 0) (idx + 1)

/-- Source `findAnyUnescaped`: first index of any target character not enclosed in
one of the given delimiter pairs (`none` models Go's `-1`). -/
def findAnyUnescaped (text : Str) (targets : Str) (delims : List (Char × Char)) :
    Option Nat :=
  fauGo targets delims text false (Char.ofNat 0) 0

/-- Source constant `quotesDelim` (the double-quote delimiter pair). -/
def quotesDelim : Char × Char := ('"', '"')

/-- Source `findUnescaped` for a single target character. -/
def findUnescaped (text : Str) (target : Char) (delims : List (Char × Char)) :
    Option Nat :=
  findAnyUnescaped text [target] delims

/-- The character loop of `SplitByWhitespace`, carrying the buffer and the
`inString` flag. -/
def sbwGo : Str → Str → Bool → List Str → List Str
  | [], buffer, _, acc => if buffer.length > 0 then acc ++ [buffer] else acc
  | c :: rest, buffer, inString, acc =>
    if isAbnfWs c then
      if inString then sbwGo rest [] false (acc ++ [buffer])
      else sbwGo rest buffer false acc
    else sbwGo rest (buffer ++ [c]) true acc

/-- Source `SplitByWhitespace`: split on runs of space/tab.  (Note the Go loop starts
with `inString = true`, so leading whitespace contributes an empty section.) -/
def SplitByWhitespace (text : Str) : List Str := sbwGo text [] true []

/-! ## `ParseParams` -/

/-- The character loop of `ParseParams` (`parseLoop`), carrying the remaining
input, the consumed count, the buffer, the current key, the `parsingKey` and
`inQuotes` flags and the accumulated parameter list.  The fixed arguments are
`sep`, `end` (called `en`), `quoteValues` (`qv`) and `permitSingletons`
(`ps`). -/
def ppLoop (sep en : Char) (qv ps : Bool) :
    Str → Nat → Str → Str → Bool → Bool → Params → Except PFail (Params × Nat)
  | [], consumed, buffer, key, parsingKey, inQuotes, acc =>
    -- End of text: same flush as hitting `end`, but unclosed quotes fail.
    if inQuotes then .error .err
    else if parsingKey ∧ ps then .ok (acc ++ [(buffer, none)], consumed)
    else if parsingKey then .error .err
    else .ok (acc ++ [(key, some buffer)], consumed)
  | c :: rest, consumed, buffer, key, parsingKey, inQuotes, acc =>
    if c = en then
      if inQuotes then
        ppLoop sep en qv ps rest (consumed + 1) (buffer ++ [en]) key parsingKey inQuotes acc
      else
        -- `break parseLoop`: `consumed` stays at the index of the end byte.
        if parsingKey ∧ ps then .ok (acc ++ [(buffer, none)], consumed)
        else if parsingKey then .error .err
        else .ok (acc ++ [(key, some buffer)], consumed)
    else if c = sep then
      if inQuotes then
        ppLoop sep en qv ps rest (consumed + 1) (buffer ++ [sep]) key parsingKey inQuotes acc
      else if parsingKey ∧ ps then
        ppLoop sep en qv ps rest (consumed + 1) [] key true inQuotes (acc ++ [(buffer, none)])
      else if parsingKey then .error .err
      else ppLoop sep en qv ps rest (consumed + 1) [] key true inQuotes (acc ++ [(key, some buffer)])
    else if c = '"' then
      if ¬qv then ppLoop sep en qv ps rest (consumed + 1) (buffer ++ ['"']) key parsingKey inQuotes acc
      else if parsingKey then .error .err
      else if ¬inQuotes ∧ buffer ≠ [] then .error .err
      else if inQuotes then
        -- A closing quote must sit at end-of-text or directly before `sep`.
        match rest.head? with
        | none => ppLoop sep en qv ps rest (consumed + 1) buffer key parsingKey false acc
        | some c2 =>
          if c2 ≠ sep then .error .err
          else ppLoop sep en qv ps rest (consumed + 1) buffer key parsingKey false acc
      else ppLoop sep en qv ps rest (consumed + 1) buffer key parsingKey true acc
    else if c = '=' then
      if buffer = [] then .error .err
      else if ¬parsingKey then .error .err
      else ppLoop sep en qv ps rest (consumed + 1) [] buffer false inQuotes acc
    else
      if ¬inQuotes ∧ isAbnfWs c then
        ppLoop sep en qv ps rest (consumed + 1) buffer key parsingKey inQuotes acc
      else ppLoop sep en qv ps rest (consumed + 1) (buffer ++ [c]) key parsingKey inQuotes acc

/-- Source `ParseParams(source, start, sep, end, quoteValues, permitSingletons)`.
A zero character (`Char.ofNat 0`) for `start` or `en` models Go's `0` = "no
delimiter".  Returns the parameter list and the consumed byte count. -/
def ParseParams (source : Str) (start sep en : Char)
    (quoteValues permitSingletons : Bool) : Except PFail (Params × Nat) :=
  if source.length = 0 then .ok ([], 0)
  else if start ≠ Char.ofNat 0 then
    match source with
    | [] => .ok ([], 0)
    | c :: rest =>
      if c ≠ start then .error .err
      else ppLoop sep en quoteValues permitSingletons rest 1 [] [] true false []
  else ppLoop sep en quoteValues permitSingletons source 0 [] [] true false []

/-! ## `ParseHostPort`, `ParseSipUri`, `ParseUri` -/

/-- Source `ParseHostPort`: split on the first `:`; an absent port is `none`, a
present one must parse as a base-10 unsigned 16-bit integer. -/
def ParseHostPort (rawText : Str) : Except PFail (Str × Option Nat) :=
  match idxOf rawText ':' with
  | none => .ok (rawText, none)
  | some colonIdx =>
    match goParseUint (rawText.drop (colonIdx + 1)) 16 with
    | .error e => .error e
    | .ok p => .ok (rawText.take colonIdx, some p)

/-- The URI-parameter / URI-header phase of `ParseSipUri`, as a function of
the remainder that starts where the host section ends: with nothing left both
sets are fresh (`NewParams`); otherwise parameters are parsed if the
remainder begins with `;`, then headers introduced by `?`, and leftover bytes
are an internal error. -/
def parseUriParamsFrom (s5 : Str) : Except PFail (Params × Params) :=
  if s5.length = 0 then .ok ([], [])
  else
    let uriParamsRes : Except PFail (Params × Nat) :=
      match s5 with
      | ';' :: _ => ParseParams s5 ';' ';' '?' true true
      | _ => .ok ([], 0)
    match uriParamsRes with
    | .error e => .error e
    | .ok upn =>
      let s6 := s5.drop upn.2
      match ParseParams s6 '?' '&' (Char.ofNat 0) true false with
      | .error e => .error e
      | .ok hn =>
        let s7 := s6.drop hn.2
        if 0 < s7.length then .error .err
        else .ok (upn.1, hn.1)

/-- The part of `ParseSipUri` after the user-info part has been consumed:
host[:port] part (ending at the first `;`, else the first `?`, else the end
of the string), then the parameter/header phase on the rest. -/
def sipUriHostPhase (enc : Bool) (user pass : Option Str) (s4 : Str) :
    Except PFail SipUri :=
  let endOfUriPart : Nat :=
    match idxOf s4 ';' with
    | some i => i
    | none =>
      match idxOf s4 '?' with
      | some i => i
      | none => s4.length
  match ParseHostPort (s4.take endOfUriPart) with
  | .error e => .error e
  | .ok hp =>
    match parseUriParamsFrom (s4.drop endOfUriPart) with
    | .error e => .error e
    | .ok ph => .ok ⟨enc, user, pass, ⟨hp.1, hp.2⟩, ph.1, ph.2⟩

/-- The part of `ParseSipUri` after the scheme and its `:` have been
consumed: optional user-info part (ending in `@`, with the first `:` before
it splitting user from password), then the host phase. -/
def sipUriAfterColon (enc : Bool) (s3 : Str) : Except PFail SipUri :=
  match idxOf s3 '@' with
  | none => sipUriHostPhase enc none none s3
  | some endUI =>
    let endUN : Option Nat :=
      match idxOf s3 ':' with
      | some i => if endUI < i then none else some i
      | none => none
    match endUN with
    | none => sipUriHostPhase enc (some (s3.take endUI)) none (s3.drop (endUI + 1))
    | some i =>
      sipUriHostPhase enc (some (s3.take i))
        (some ((s3.take endUI).drop (i + 1))) (s3.drop (endUI + 1))

/-- Source `ParseSipUri`.  The Go function slices `uriStr[:3]`, `uriStr[0:1]` and
`uriStr[0]` unguarded, so short inputs panic; via `ParseUri` (scheme already
checked) those paths are unreachable. -/
def ParseSipUri (uriStr : Str) : Except PFail SipUri :=
  if uriStr.length < 3 then .error .panic
  else if lowerStr (uriStr.take 3) ≠ str "sip" then .error .err
  else
    let s1 := uriStr.drop 3
    match s1 with
    | [] => .error .panic  -- Go `uriStr[0:1]` on an empty string
    | c1 :: _ =>
      let enc := lowerStr [c1] == str "s"
      let s2 := if enc then s1.drop 1 else s1
      match s2 with
      | [] => .error .panic  -- Go `uriStr[0]` on an empty string
      | c2 :: s3 =>
        if c2 ≠ ':' then .error .err
        else sipUriAfterColon enc s3

/-- Source `ParseUri`: a trimmed `*` is the wildcard URI; otherwise the scheme before
the first `:` must be `sip` or `sips`. -/
def ParseUri (uriStr : Str) : Except PFail Uri :=
  if goTrimSpace uriStr = str "*" then .ok .wildcard
  else
    match idxOf uriStr ':' with
    | none => .error .err
    | some colonIdx =>
      let scheme := lowerStr (uriStr.take colonIdx)
      if scheme = str "sip" ∨ scheme = str "sips" then
        match ParseSipUri uriStr with
        | .error e => .error e
        | .ok u => .ok (.sip u)
      else .error .err

/-! ## Address values (`ParseAddressValue`, `ParseAddressValues`) -/

/-- Shared tail of `ParseAddressValue`: parse the URI substring `s.take
endOfUri`, then any header parameters from `s.drop startOfParams`. -/
def pavTail (displayName : Option Str) (s : Str) (endOfUri startOfParams : Nat) :
    Except PFail (Option Str × Uri × Params) :=
  match ParseUri (s.take endOfUri) with
  | .error e => .error e
  | .ok uri =>
    if s.length ≤ startOfParams then .ok (displayName, uri, [])
    else
      match ParseParams (s.drop startOfParams) ';' ';' ',' true true with
      | .error e => .error e
      | .ok pn => .ok (displayName, uri, pn.1)

/-- Source `ParseAddressValue`: one address segment — optional (possibly quoted)
display name, URI (in optional angle brackets), header parameters.

Faithful to the source, including its panics: with a `<` but no later `>`,
`endOfUri` is Go's `-1`, only `endOfUri == 0` is guarded, and
`addressText[:endOfUri]` panics; and an all-whitespace segment panics at
`addressText[0]` after trimming. -/
def ParseAddressValue (addressText : Str) : Except PFail (Option Str × Uri × Params) :=
  if addressText.length = 0 then .error .err
  else
    let t0 := goTrimSpace addressText
    let fab : Option Nat := findUnescaped t0 '<' [quotesDelim]
    -- Display name handling (`firstAngleBracket > 0`).
    let dnRes : Except PFail (Option Str × Str) :=
      if (match fab with | some i => decide (0 < i) | none => false) = true then
        match t0 with
        | '"' :: t1 =>
          match idxOf t1 '"' with
          | none => .error .err  -- unclosed quotes
          | some nq => .ok (some (t1.take nq), t1.drop (nq + 1))
        | _ =>
          let i := (fab.getD 0)
          .ok (some (goTrimSpace (t0.take i)), t0.drop i)
      else .ok (none, t0)
    match dnRes with
    | .error e => .error e
    | .ok dnt =>
      let displayName := dnt.1
      match goTrimSpace dnt.2 with
      | [] => .error .panic  -- Go `addressText[0]` on an empty string
      | c :: t2' =>
        if c ≠ '<' then
          if displayName ≠ none then .error .err
          else
            let t2 := c :: t2'
            let endOfUri := (idxOf t2 ';').getD t2.length
            pavTail displayName t2 endOfUri endOfUri
        else
          let t3 := t2'
          match idxOf t3 '>' with
          | none => .error .panic  -- Go slices `addressText[:-1]`
          | some 0 => .error .err  -- `'<' without closing '>'`
          | some endOfUri => pavTail displayName t3 endOfUri (endOfUri + 1)

/-- The character loop of `ParseAddressValues`: split on commas outside angle
brackets and double quotes, feeding each segment to `ParseAddressValue`. -/
def pavGo : Str → Str → Bool → Bool → List (Option Str × Uri × Params) →
    Except PFail (List (Option Str × Uri × Params))
  | [], _, _, _, acc => .ok acc
  | c :: rest, cur, inBrackets, inQuotes, acc =>
    if c = '<' ∧ ¬inQuotes then pavGo rest (cur ++ [c]) true inQuotes acc
    else if c = '>' ∧ ¬inQuotes then pavGo rest (cur ++ [c]) false inQuotes acc
    else if c = '"' then pavGo rest (cur ++ [c]) inBrackets (¬inQuotes) acc
    else if ¬inQuotes ∧ ¬inBrackets ∧ c = ',' then
      match ParseAddressValue cur with
      | .error e => .error e
      | .ok t => pavGo rest [] inBrackets inQuotes (acc ++ [t])
    else pavGo rest (cur ++ [c]) inBrackets inQuotes acc

/-- Source `ParseAddressValues`: a comma-separated list of addresses (a trailing
comma is appended to flush the final section). -/
def ParseAddressValues (addresses : Str) :
    Except PFail (List (Option Str × Uri × Params)) :=
  pavGo (addresses ++ [',']) [] false false []

/-! ## Typed header parsers -/

/-- The header-building loop of `parseAddressHeader` (the `for idx` loop):
`To`/`From` admit a single non-wildcard address; `Contact` admits several, and
a wildcard contact must carry no parameters and no display name. -/
def buildAddrHeaders (headerName : Str) (idx : Nat) :
    List (Option Str × Uri × Params) → Except PFail (List Header)
  | [] => .ok []
  | (dn, uri, ps) :: rest =>
    if headerName = str "to" ∨ headerName = str "t" then
      if 0 < idx then .error .err  -- multiple to: headers
      else
        match uri with
        | .wildcard => .error .err  -- wildcard not permitted in to:
        | .sip u =>
          match buildAddrHeaders headerName (idx + 1) rest with
          | .error e => .error e
          | .ok tl => .ok (.toH dn (.sip u) ps :: tl)
    else if headerName = str "from" ∨ headerName = str "f" then
      if 0 < idx then .error .err  -- multiple from: headers
      else
        match uri with
        | .wildcard => .error .err  -- wildcard not permitted in from:
        | .sip u =>
          match buildAddrHeaders headerName (idx + 1) rest with
          | .error e => .error e
          | .ok tl => .ok (.fromH dn (.sip u) ps :: tl)
    else if headerName = str "contact" ∨ headerName = str "m" then
      match uri with
      | .wildcard =>
        if 0 < ps.length then .error .err  -- wildcard contact with params
        else if dn ≠ none then .error .err  -- wildcard contact with name
        else
          match buildAddrHeaders headerName (idx + 1) rest with
          | .error e => .error e
          | .ok tl => .ok (.contact dn .wildcard ps :: tl)
      | .sip u =>
        match buildAddrHeaders headerName (idx + 1) rest with
        | .error e => .error e
        | .ok tl => .ok (.contact dn (.sip u) ps :: tl)
    else .ok []

/-- Source `parseAddressHeader` for To / From / Contact (and their short forms). -/
def parseAddressHeader (headerName headerText : Str) : Except PFail (List Header) :=
  if headerName = str "to" ∨ headerName = str "t" ∨ headerName = str "from"
      ∨ headerName = str "f" ∨ headerName = str "contact" ∨ headerName = str "m" then
    match ParseAddressValues headerText with
    | .error e => .error e
    | .ok triples => buildAddrHeaders headerName 0 triples
  else .ok []

/-- Source `parseCSeq`: whitespace-split into exactly two sections, numeric first
section (32-bit, capped at `maxCseq`), no `;` in the method. -/
def parseCSeq (headerName headerText : Str) : Except PFail (List Header) :=
  match SplitByWhitespace headerText with
  | [a, b] =>
    match goParseUint a 32 with
    | .error e => .error e
    | .ok seqno =>
      if maxCseq < seqno then .error .err
      else
        let methodName := goTrimSpace b
        if methodName.contains ';' then .error .err
        else .ok [.cseq seqno methodName]
  | _ => .error .err

/-- Source `parseCallId`: trimmed, no whitespace, no semicolon, non-empty. -/
def parseCallId (headerName headerText : Str) : Except PFail (List Header) :=
  let t := goTrimSpace headerText
  if t.any isAbnfWs then .error .err
  else if t.contains ';' then .error .err
  else if t.length = 0 then .error .err
  else .ok [.callId t]

/-- One comma-separated section of a Via header.  Returns the hop and the
value of the Go `err` variable after the section (the final `ParseParams`
error is assigned but never checked inside the loop). -/
def viaSection (s : Str) : Except PFail (ViaHop × Option PFail) :=
  let parts := goSplit '/' s
  if parts.length < 3 then .error .err
  else
    match parts with
    | p0 :: p1 :: rest2 =>
      let p2 := joinChar '/' rest2
      let initialSpaces := p2.length - (p2.dropWhile isAbnfWs).length
      let sentByIdx : Int :=
        (match idxAny (p2.drop initialSpaces) [' ', '\t'] with
         | some i => (i : Int)
         | none => -1) + initialSpaces + 1
      if sentByIdx = 0 then .error .err
      else if sentByIdx = 1 then .error .err
      else
        let protocolName := goTrimSpace p0
        let protocolVersion := goTrimSpace p1
        let transport := goTrimSpace (p2.take (sentByIdx - 1).toNat)
        if protocolName.length = 0 then .error .err
        else if protocolVersion.length = 0 then .error .err
        else if transport.length = 0 then .error .err
        else
          let viaBody := p2.drop sentByIdx.toNat
          match idxOf viaBody ';' with
          | none =>
            match ParseHostPort viaBody with
            | .error e => .error e
            | .ok hp =>
              .ok (⟨protocolName, protocolVersion, transport, hp.1, hp.2, []⟩, none)
          | some paramsIdx =>
            match ParseHostPort (viaBody.take paramsIdx) with
            | .error e => .error e
            | .ok hp =>
              match ParseParams (viaBody.drop paramsIdx) ';' ';' (Char.ofNat 0) true true with
              | .error e =>
                .ok (⟨protocolName, protocolVersion, transport, hp.1, hp.2, []⟩, some e)
              | .ok pn =>
                .ok (⟨protocolName, protocolVersion, transport, hp.1, hp.2, pn.1⟩, none)
    | _ => .error .err

/-- The section loop of `parseViaHeader`, threading the Go `err` variable. -/
def viaLoop : List Str → List ViaHop → Option PFail →
    Except PFail (List ViaHop × Option PFail)
  | [], acc, ev => .ok (acc, ev)
  | s :: rest, acc, _ =>
    match viaSection s with
    | .error e => .error e
    | .ok he => viaLoop rest (acc ++ [he.1]) he.2

/-- Source `parseViaHeader`: comma-split; all hops live in one `Via` header. -/
def parseViaHeader (headerName headerText : Str) : Except PFail (List Header) :=
  match viaLoop (goSplit ',' headerText) [] none with
  | .error e => .error e
  | .ok hv =>
    match hv.2 with
    | some e => .error e
    | none => .ok [.via hv.1]

/-- Source `parseMaxForwards`: trimmed base-10 unsigned 32-bit. -/
def parseMaxForwards (headerName headerText : Str) : Except PFail (List Header) :=
  match goParseUint (goTrimSpace headerText) 32 with
  | .error e => .error e
  | .ok v => .ok [.maxForwards v]

/-- Source `parseExpires`: trimmed base-10 unsigned 32-bit. -/
def parseExpires (headerName headerText : Str) : Except PFail (List Header) :=
  match goParseUint (goTrimSpace headerText) 32 with
  | .error e => .error e
  | .ok v => .ok [.expires v]

/-- Source `parseContentLength`: trimmed base-10 unsigned 32-bit. -/
def parseContentLength (headerName headerText : Str) : Except PFail (List Header) :=
  match goParseUint (goTrimSpace headerText) 32 with
  | .error e => .error e
  | .ok v => .ok [.contentLength v]

/-- Source `parseUserAgent`: trimmed opaque string. -/
def parseUserAgent (headerName headerText : Str) : Except PFail (List Header) :=
  .ok [.userAgent (goTrimSpace headerText)]

/-- Source `parseContentType`: trimmed opaque string. -/
def parseContentType (headerName headerText : Str) : Except PFail (List Header) :=
  .ok [.contentType (goTrimSpace headerText)]

/-- Source `parseAccept`: trimmed opaque string. -/
def parseAccept (headerName headerText : Str) : Except PFail (List Header) :=
  .ok [.accept (goTrimSpace headerText)]

/-- Source `parseAllow`: comma-split, each method trimmed. -/
def parseAllow (headerName headerText : Str) : Except PFail (List Header) :=
  .ok [.allow ((goSplit ',' headerText).map goTrimSpace)]

/-- Source `parseRequire`: comma-split, each extension trimmed. -/
def parseRequire (headerName headerText : Str) : Except PFail (List Header) :=
  .ok [.require ((goSplit ',' headerText).map goTrimSpace)]

/-- Source `parseSupported`: comma-split, each extension trimmed. -/
def parseSupported (headerName headerText : Str) : Except PFail (List Header) :=
  .ok [.supported ((goSplit ',' headerText).map goTrimSpace)]

/-- Source `parseRouteHeader`: address values, URIs only. -/
def parseRouteHeader (headerName headerText : Str) : Except PFail (List Header) :=
  match ParseAddressValues headerText with
  | .error e => .error e
  | .ok triples => .ok [.route (triples.map (fun t => t.2.1))]

/-- Source `parseRecordRouteHeader`: address values, URIs only. -/
def parseRecordRouteHeader (headerName headerText : Str) : Except PFail (List Header) :=
  match ParseAddressValues headerText with
  | .error e => .error e
  | .ok triples => .ok [.recordRoute (triples.map (fun t => t.2.1))]

/-- Modelled from the spec: `parseAuthorization` is referenced by the default
registry but its source is not under src/; §4.G — "delegate to the parameter
parser with `quote_values=true`, `permit_singletons=true`" producing a
parameter set.  (The separator choice is the modeller's; no claim depends on
it.) -/
def parseAuthorization (headerName headerText : Str) : Except PFail (List Header) :=
  match ParseParams headerText (Char.ofNat 0) ',' (Char.ofNat 0) true true with
  | .error e => .error e
  | .ok pn => .ok [.authorization pn.1]

/-! ## Header-parser registry and `ParseHeader` -/

/-- The type of header parsers (`HeaderParser`). -/
def HP := Str → Str → Except PFail (List Header)

/-- Source `defaultHeaderParsers()`: note the mixed-case keys `"Call-ID"`,
`"Authorization"` and `"Proxy-Authorization"`, exactly as in the source. -/
def defaultHeaderParsers : List (Str × HP) :=
  [ (str "to", parseAddressHeader)
  , (str "t", parseAddressHeader)
  , (str "from", parseAddressHeader)
  , (str "f", parseAddressHeader)
  , (str "contact", parseAddressHeader)
  , (str "m", parseAddressHeader)
  , (str "Call-ID", parseCallId)
  , (str "cseq", parseCSeq)
  , (str "via", parseViaHeader)
  , (str "v", parseViaHeader)
  , (str "max-forwards", parseMaxForwards)
  , (str "content-length", parseContentLength)
  , (str "l", parseContentLength)
  , (str "expires", parseExpires)
  , (str "user-agent", parseUserAgent)
  , (str "allow", parseAllow)
  , (str "content-type", parseContentType)
  , (str "accept", parseAccept)
  , (str "c", parseContentType)
  , (str "require", parseRequire)
  , (str "supported", parseSupported)
  , (str "route", parseRouteHeader)
  , (str "record-route", parseRecordRouteHeader)
  , (str "Authorization", parseAuthorization)
  , (str "Proxy-Authorization", parseAuthorization) ]

/-- The registry of a parser built by `NewParser`: every default entry is
re-registered through `SetHeaderParser`, which lowercases the key. -/
def parserRegistry : List (Str × HP) :=
  defaultHeaderParsers.map (fun kv => (lowerStr kv.1, kv.2))

/-- Go map lookup (exact key equality). -/
def regLookup (reg : List (Str × HP)) (key : Str) : Option HP :=
  List.lookup key reg

/-- Source `ParseHeader(headerText, p)`: split at the first `:`, trim the pieces,
look the lowercased field name up in `p`'s registry (or, for a `nil` parser,
in the freshly built default map), and fall back to a `GenericHeader`. -/
def ParseHeader (headerText : Str) (p : Option (List (Str × HP))) :
    Except PFail (List Header) :=
  match idxOf headerText ':' with
  | none => .error .err
  | some colonIdx =>
    let fieldName := goTrimSpace (headerText.take colonIdx)
    let lowerFieldName := lowerStr fieldName
    let fieldText := goTrimSpace (headerText.drop (colonIdx + 1))
    let headerParsers := match p with | none => defaultHeaderParsers | some r => r
    match regLookup headerParsers lowerFieldName with
    | some headerParser => headerParser lowerFieldName fieldText
    | none => .ok [.generic fieldName fieldText]

/-! ## Messages and the framing loop (`parser.parse`) -/

/-- Modelled from the spec: the `Message` values (§3) — a tagged Request or
Response with an ordered header list and an opaque body; the message sources
carry many more fields (transaction, source/destination) that the framing
loop never sets. -/
inductive SipMessage
  | request (method : Str) (recipient : Str) (sipVersion : Str)
      (headers : List Header) (body : Str)
  | response (sipVersion : Str) (statusCode : Nat) (reason : Str)
      (headers : List Header) (body : Str)
deriving DecidableEq, Repr

/-- The ordered header list of a message. -/
def msgHeaders : SipMessage → List Header
  | .request _ _ _ hs _ => hs
  | .response _ _ _ hs _ => hs

/-- Source loop `msg.AddHeader(header)` for each parsed header, in order. -/
def addHeaders : SipMessage → List Header → SipMessage
  | .request m r v hs b, new => .request m r v (hs ++ new) b
  | .response v sc re hs b, new => .response v sc re (hs ++ new) b

/-- Source call `msg.SetBody(body, false)`. -/
def setBody : SipMessage → Str → SipMessage
  | .request m r v hs _, body => .request m r v hs body
  | .response v sc re hs _, body => .response v sc re hs body

/-- Modelled from the spec: `msg.GetHeaders(name)` (§3: "semantic lookup …
is by case-insensitive name"); the header-collection source is not under
src/. -/
def getHeadersCI (msg : SipMessage) (name : Str) : List Header :=
  (msgHeaders msg).filter (fun h => lowerStr (headerName h) == lowerStr name)

/-- Source `isRequest`: exactly two spaces and a third section starting `SIP`. -/
def isRequest (startLine : Str) : Bool :=
  if countChar startLine ' ' ≠ 2 then false
  else
    let parts := goSplit ' ' startLine
    if parts.length < 3 then false
    else
      match parts with
      | _ :: _ :: p2 :: _ =>
        if p2.length < 3 then false else upperStr (p2.take 3) == str "SIP"
      | _ => false

/-- Source `isResponse`: at least two spaces and a first section starting `SIP`. -/
def isResponse (startLine : Str) : Bool :=
  if countChar startLine ' ' < 2 then false
  else
    let parts := goSplit ' ' startLine
    if parts.length < 3 then false
    else
      match parts with
      | p0 :: _ =>
        if p0.length < 3 then false else upperStr (p0.take 3) == str "SIP"
      | _ => false

/-- Source `ParseRequestLine`: method, recipient URI and version; a wildcard `*`
recipient is rejected. -/
def ParseRequestLine (requestLine : Str) :
    Except PFail (Str × Uri × Str) :=
  let parts := goSplit ' ' requestLine
  if parts.length ≠ 3 then .error .err
  else
    match parts with
    | [p0, p1, p2] =>
      match ParseUri p1 with
      | .error e => .error e
      | .ok recipient =>
        match recipient with
        | .wildcard => .error .err  -- wildcard URI not permitted
        | .sip u => .ok (upperStr p0, .sip u, p2)
    | _ => .error .err

/-- Source `ParseStatusLine`: version, numeric status code (base-10 unsigned
16-bit), reason phrase (the space-joined remainder). -/
def ParseStatusLine (statusLine : Str) :
    Except PFail (Str × Nat × Str) :=
  let parts := goSplit ' ' statusLine
  if parts.length < 3 then .error .err
  else
    match parts with
    | p0 :: p1 :: rest =>
      match goParseUint p1 16 with
      | .error e => .error e
      | .ok statusCode => .ok (p0, statusCode, joinChar ' ' rest)
    | _ => .error .err

/-- Errors reported on the error sink by the framing loop. -/
inductive ErrKind
  | invalidStartLine
  | malformedMessage
  | brokenMessage
deriving DecidableEq, Repr

/-- An emission of the framing loop: an error on the error sink or a message
on the output sink. -/
inductive Event
  | errEv (k : ErrKind)
  | msgEv (m : SipMessage)
deriving DecidableEq, Repr

/-- The state of one parser: unread input bytes (quiescent view: everything
ever written), the queued body-length pairs of the datagram side channel
(§4.B), and the terminal-error cell. -/
structure PState where
  input : Str
  bodyLens : List (Nat × Nat)
  termErr : Option ErrKind
deriving DecidableEq, Repr

/-- Outcome of one iteration of the framing loop: blocked on input / the side
channel, crashed by a Go panic, or a step emitting events. -/
inductive IterOut
  | blocked
  | crashed
  | step (evs : List Event) (st : PState)
deriving DecidableEq, Repr

/-- Source `flushBuffer`: parse the buffered logical header line; parse errors are
logged and the header dropped, panics propagate.  The loop hands `ParseHeader`
its own parser, whose registry `NewParser` built with lowercased keys. -/
def flushB (buffer : Str) (acc : List Header) : Except PFail (List Header) :=
  if buffer ≠ [] then
    match ParseHeader buffer (some parserRegistry) with
    | .ok newHeaders => .ok (acc ++ newHeaders)
    | .error .err => .ok acc
    | .error .panic => .error .panic
  else .ok acc

/-- The header-section loop of `parser.parse`, fused with `next_line`:
`curLine` is the physical line being scanned, `buffer` the pending logical
header, `acc` the parsed headers.  A line with a non-whitespace first byte
starts a new header; a whitespace-led line is appended as `" " + line`; a
whitespace-led line before any header is discarded; an empty line flushes and
ends the section, returning the remaining input. -/
def chGo : Str → Str → Str → List Header → Except PFail (List Header × Str)
  | c1 :: c2 :: rest, curLine, buffer, acc =>
    if c1 = '\r' ∧ c2 = '\n' then
      match curLine with
      | [] =>
        match flushB buffer acc with
        | .error e => .error e
        | .ok acc2 => .ok (acc2, rest)
      | c :: _ =>
        if ¬isAbnfWs c then
          match flushB buffer acc with
          | .error e => .error e
          | .ok acc2 => chGo rest [] curLine acc2
        else if buffer ≠ [] then chGo rest [] (buffer ++ [' '] ++ curLine) acc
        else chGo rest [] [] acc
    else chGo (c2 :: rest) (curLine ++ [c1]) buffer acc
  | [c], _, _, acc => .ok (acc, [])
  | [], _, _, acc => .ok (acc, [])

/-- The header section of one message, starting after the start line. -/
def collectHeaders (input : Str) : Except PFail (List Header × Str) :=
  chGo input [] [] []

/-- Steps 5–8 of one framing iteration once the headers are in: read the body
(`next_chunk`) and emit the message, or a `BrokenMessage` error. -/
def bodyPhase (msg : SipMessage) (contentLength : Nat) (rest : Str)
    (q : List (Nat × Nat)) (termErr : Option ErrKind) : IterOut :=
  match chunk? contentLength rest with
  | none => .step [.errEv .brokenMessage] ⟨rest, q, some .brokenMessage⟩
  | some br =>
    let msg' := if goTrimSpace br.1 ≠ [] then setBody msg br.1 else msg
    .step [.msgEv msg'] ⟨br.2, q, termErr⟩

/-- Steps 4–8 of one framing iteration: collect the header block, add the
headers to the message, determine the body length — in stream mode from
exactly one `Content-Length` header (zero or several is a fatal
`MalformedMessage`), in datagram mode from the side channel — then read the
body and emit. -/
def afterStartLine (streamed : Bool) (msg : SipMessage) (input : Str)
    (bodyLens : List (Nat × Nat)) (termErr : Option ErrKind) : IterOut :=
  match collectHeaders input with
  | .error _ => .crashed
  | .ok hr =>
    let msg1 := addHeaders msg hr.1
    let rest := hr.2
    if streamed then
      let cls := getHeadersCI msg1 (str "Content-Length")
      if cls.length = 0 then
        .step [.errEv .malformedMessage] ⟨rest, bodyLens, some .malformedMessage⟩
      else if 1 < cls.length then
        .step [.errEv .malformedMessage] ⟨rest, bodyLens, some .malformedMessage⟩
      else
        match cls with
        | .contentLength n :: _ => bodyPhase msg1 n rest bodyLens termErr
        | _ => .crashed  -- Go type assertion `.(*ContentLength)` panics
    else
      match bodyLens with
      | [] => .blocked
      | bl :: q => bodyPhase msg1 bl.1 rest q termErr

/-- Steps 1–3 of one framing iteration: classify and sub-parse the start
line, building the fresh message.  `CreateSimpleRequest` (not under src/) is
modelled from the spec as a Request carrying the method, the rendered
`recipient.Domain()` and the SIP version; `NewResponse` likewise. -/
def startLineRes (startLine : Str) : Except PFail SipMessage :=
  if isRequest startLine then
    match ParseRequestLine startLine with
    | .ok mrv =>
      match mrv.2.1 with
      | .sip u =>
        .ok (.request mrv.1
          (u.FDomain.Host ++
            (match u.FDomain.Port with
             | none => []
             | some p => ':' :: (Nat.repr p).data))
          mrv.2.2 [] [])
      | .wildcard => .error .err  -- unreachable: ParseRequestLine rejects it
    | .error e => .error e
  else if isResponse startLine then
    match ParseStatusLine startLine with
    | .ok vsr => .ok (.response vsr.1 vsr.2.1 vsr.2.2 [] [])
    | .error e => .error e
  else .error .err  -- "transmission … is not a SIP message"

/-- One iteration of `parser.parse`.  On a bad start line: emit
`InvalidStartLine`, set the terminal error, and in datagram mode pop one
body-length pair and skip `total − len(startLine) − 2` bytes (a failed
`next_chunk` is only logged, consuming nothing). -/
def parseIter (streamed : Bool) (st : PState) : IterOut :=
  match nextLine? st.input with
  | none => .blocked
  | some lr =>
    let startLine := lr.1
    let rest := lr.2
    match startLineRes startLine with
    | .ok msg => afterStartLine streamed msg rest st.bodyLens st.termErr
    | .error .panic => .crashed
    | .error .err =>
      if streamed then
        .step [.errEv .invalidStartLine] ⟨rest, st.bodyLens, some .invalidStartLine⟩
      else
        match st.bodyLens with
        | [] => .blocked  -- the pop from the side channel would block
        | bl :: q =>
          let skip : Int := (bl.2 : Int) - startLine.length - 2
          let input' :=
            if 0 ≤ skip ∧ skip ≤ (rest.length : Int) then rest.drop skip.toNat
            else rest
          .step [.errEv .invalidStartLine] ⟨input', q, some .invalidStartLine⟩

/-- End marker of a bounded run of the framing loop. -/
inductive RunEnd
  | outOfFuel
  | blocked
  | crashed
deriving DecidableEq, Repr

/-- A bounded run of the framing loop, collecting all emissions in order. -/
def parseRun : Nat → Bool → PState → List Event × PState × RunEnd
  | 0, _, st => ([], st, .outOfFuel)
  | fuel + 1, streamed, st =>
    match parseIter streamed st with
    | .blocked => ([], st, .blocked)
    | .crashed => ([], st, .crashed)
    | .step evs st' =>
      match parseRun fuel streamed st' with
      | (evs', st'', e) => (evs ++ evs', st'', e)

/-- Source `getBodyLength`: distance from past the first CRLFCRLF to the end
(`-1` = `none` when there is no CRLFCRLF). -/
def getBodyLength (data : Str) : Option Nat :=
  match crlfcrlfIdx data with
  | none => none
  | some idx => some (data.length - (idx + 4))

/-- Source `parser.Write` in datagram mode: push `(body_length, len(data))` onto the
side channel and append the bytes; with no CRLFCRLF, consume nothing. -/
def writeDatagram (st : PState) (data : Str) : PState :=
  match getBodyLength data with
  | none => st
  | some bl =>
    ⟨st.input ++ data, st.bodyLens ++ [(bl, data.length)], st.termErr⟩

/-- The state of a fresh datagram-mode parser after a sequence of writes. -/
def mkState (writes : List Str) : PState :=
  writes.foldl writeDatagram ⟨[], [], none⟩

/-! ## Helper lemmas -/

theorem goParseUint_lt {s : Str} {bits n : Nat}
    (h : goParseUint s bits = .ok n) : n < 2 ^ bits := by
  unfold goParseUint at h
  split at h
  · split at h
    · injection h with h'
      omega
    · exact absurd h (by simp)
  · exact absurd h (by simp)

theorem mem_dropWhile_iff {p : Char → Bool} {c : Char} (hc : p c = false) :
    ∀ s : Str, c ∈ s.dropWhile p ↔ c ∈ s := by
  intro s
  induction s with
  | nil => simp
  | cons a t ih =>
    by_cases ha : p a = true
    · have hne : c ≠ a := fun h => by rw [h, ha] at hc; cases hc
      simp [List.dropWhile_cons, ha, ih, hne]
    · simp [List.dropWhile_cons, ha]

theorem mem_goTrimSpace_iff {c : Char} (hc : goIsSpace c = false) (s : Str) :
    c ∈ goTrimSpace s ↔ c ∈ s := by
  unfold goTrimSpace
  rw [List.mem_reverse, mem_dropWhile_iff hc, List.mem_reverse, mem_dropWhile_iff hc]

theorem contains_goTrimSpace (s : Str) (c : Char) (hc : goIsSpace c = false) :
    (goTrimSpace s).contains c = s.contains c := by
  have h1 : c ∈ goTrimSpace s ↔ c ∈ s := mem_goTrimSpace_iff hc s
  by_cases h : c ∈ s
  · have ht : (goTrimSpace s).contains c = true := List.elem_iff.mpr (h1.mpr h)
    have hs : s.contains c = true := List.elem_iff.mpr h
    rw [ht, hs]
  · have ht : (goTrimSpace s).contains c = false := by
      have := fun hh => h (h1.mp (List.elem_iff.mp hh))
      simpa using this
    have hs : s.contains c = false := by
      have := fun hh => h (List.elem_iff.mp hh)
      simpa using this
    rw [ht, hs]

theorem goTrimSpace_cons_space (y : Str) :
    goTrimSpace (' ' :: y) = goTrimSpace y := by
  unfold goTrimSpace
  rw [List.dropWhile_cons]
  simp [goIsSpace]

theorem dropWhile_goIsSpace_eq_self {c : Char} (t : Str)
    (hc : goIsSpace c = false) : (c :: t).dropWhile goIsSpace = c :: t := by
  rw [List.dropWhile_cons]
  simp [hc]

theorem goTrimSpace_eq_self (y : Str) (hy : y ≠ [])
    (hh : goIsSpace (y.head hy) = false)
    (hl : goIsSpace (y.getLast hy) = false) :
    goTrimSpace y = y := by
  unfold goTrimSpace
  have h1 : y.dropWhile goIsSpace = y := by
    cases y with
    | nil => simp
    | cons c t =>
      rw [List.head_cons] at hh
      exact dropWhile_goIsSpace_eq_self t hh
  rw [h1]
  have h2 : y.reverse.dropWhile goIsSpace = y.reverse := by
    cases hr : y.reverse with
    | nil => simp
    | cons c t =>
      have hc : c = y.getLast hy := by
        have h3 := List.head?_reverse y
        rw [hr, List.getLast?_eq_getLast y hy] at h3
        exact Option.some.inj h3
      exact dropWhile_goIsSpace_eq_self t (by rw [hc]; exact hl)
  rw [h2, List.reverse_reverse]

theorem idxOf_append_cons (pre suf : Str) (t : Char)
    (hpre : ∀ c ∈ pre, c ≠ t) :
    idxOf (pre ++ t :: suf) t = some pre.length := by
  induction pre with
  | nil => simp [idxOf]
  | cons c cs ih =>
    have hc : c ≠ t := hpre c (by simp)
    have ih' := ih (fun x hx => hpre x (by simp [hx]))
    show idxOf (c :: (cs ++ t :: suf)) t = some (cs.length + 1)
    simp [idxOf, hc, ih']

theorem chGo_scan : ∀ (v : Str), (∀ c ∈ v, c ≠ '\r') →
    ∀ (r : Char) (rs curLine buffer : Str) (acc : List Header),
      chGo (v ++ r :: rs) curLine buffer acc =
        chGo (r :: rs) (curLine ++ v) buffer acc := by
  intro v
  induction v with
  | nil =>
    intro _ r rs curLine buffer acc
    simp
  | cons c t ih =>
    intro hv r rs curLine buffer acc
    have hc : c ≠ '\r' := hv c (by simp)
    have hvt : ∀ x ∈ t, x ≠ '\r' := fun x hx => hv x (by simp [hx])
    cases t with
    | nil =>
      show chGo (c :: r :: rs) curLine buffer acc =
        chGo (r :: rs) (curLine ++ [c]) buffer acc
      simp only [chGo]
      rw [if_neg (fun hand => hc hand.1)]
    | cons d t' =>
      show chGo (c :: d :: (t' ++ r :: rs)) curLine buffer acc =
        chGo (r :: rs) (curLine ++ c :: d :: t') buffer acc
      simp only [chGo]
      rw [if_neg (fun hand => hc hand.1)]
      have h2 := ih hvt r rs (curLine ++ [c]) buffer acc
      rw [show (d :: t') ++ r :: rs = d :: (t' ++ r :: rs) from rfl] at h2
      rw [h2]
      simp

theorem dropWhile_reverse_noSpace (w : Str)
    (hw : ∀ c ∈ w, goIsSpace c = false) (hne : w ≠ []) (z : Str) :
    (z ++ w).reverse.dropWhile goIsSpace = (z ++ w).reverse := by
  rw [List.reverse_append]
  cases hru : w.reverse with
  | nil => exact absurd (by simpa using congrArg List.reverse hru) hne
  | cons c t =>
    have hc : goIsSpace c = false := by
      refine hw c ?_
      rw [← List.mem_reverse, hru]
      simp
    show ((c :: t) ++ z.reverse).dropWhile goIsSpace = (c :: t) ++ z.reverse
    exact dropWhile_goIsSpace_eq_self _ hc

theorem goTrimSpace_value (cv cw : Char) (tv tw : Str)
    (hcv : goIsSpace cv = false) (hw : ∀ c ∈ cw :: tw, goIsSpace c = false) :
    goTrimSpace ((cv :: tv) ++ ' ' :: ' ' :: (cw :: tw)) =
      (cv :: tv) ++ ' ' :: ' ' :: (cw :: tw) := by
  unfold goTrimSpace
  have h1 : ((cv :: tv) ++ ' ' :: ' ' :: (cw :: tw)).dropWhile goIsSpace =
      (cv :: tv) ++ ' ' :: ' ' :: (cw :: tw) :=
    dropWhile_goIsSpace_eq_self _ hcv
  rw [h1]
  have h2 : (cv :: tv) ++ ' ' :: ' ' :: (cw :: tw) =
      ((cv :: tv) ++ [' ', ' ']) ++ (cw :: tw) := by
    simp [List.append_assoc]
  rw [h2, dropWhile_reverse_noSpace (cw :: tw) hw (by simp) _,
    List.reverse_reverse]

theorem ppLoop_quoted_value (sep en : Char) (ps : Bool) :
    ∀ (v : Str), (∀ c ∈ v, c ≠ '"' ∧ c ≠ '=') →
    ∀ (tail : Str) (consumed : Nat) (buffer key : Str) (acc : Params),
      ppLoop sep en true ps (v ++ tail) consumed buffer key false true acc =
        ppLoop sep en true ps tail (consumed + v.length) (buffer ++ v) key
          false true acc := by
  intro v
  induction v with
  | nil =>
    intro _ tail consumed buffer key acc
    simp
  | cons c t ih =>
    intro hv tail consumed buffer key acc
    obtain ⟨hq, he⟩ := hv c (by simp)
    have hvt : ∀ x ∈ t, x ≠ '"' ∧ x ≠ '=' := fun x hx => hv x (by simp [hx])
    have ihh := ih hvt tail (consumed + 1) (buffer ++ [c]) key acc
    have e1 : consumed + (c :: t).length = consumed + 1 + t.length := by
      simp only [List.length_cons]
      omega
    have e2 : buffer ++ c :: t = (buffer ++ [c]) ++ t := by simp
    show ppLoop sep en true ps (c :: (t ++ tail)) consumed buffer key false true acc =
      ppLoop sep en true ps tail (consumed + (c :: t).length) (buffer ++ c :: t)
        key false true acc
    rw [e1, e2]
    by_cases hen : c = en
    · simp only [ppLoop]
      rw [if_pos hen,
        show buffer ++ [en] = buffer ++ [c] from by rw [hen]]
      exact ihh
    · by_cases hsepc : c = sep
      · simp only [ppLoop]
        rw [if_neg hen, if_pos hsepc,
          show buffer ++ [sep] = buffer ++ [c] from by rw [hsepc]]
        exact ihh
      · simp only [ppLoop]
        rw [if_neg hen, if_neg hsepc, if_neg hq, if_neg he]
        exact ihh

theorem ppLoop_open_quote (sep en : Char) (ps : Bool)
    (hsep : sep ≠ '"') (hen : en ≠ '"')
    (rest : Str) (consumed : Nat) (key : Str) (acc : Params) :
    ppLoop sep en true ps ('"' :: rest) consumed [] key false false acc =
      ppLoop sep en true ps rest (consumed + 1) [] key false true acc := by
  simp only [ppLoop]
  rw [if_neg (fun h => hen h.symm), if_neg (fun h => hsep h.symm)]
  rfl

theorem ppLoop_close_quote_eot (sep en : Char) (ps : Bool)
    (hsep : sep ≠ '"') (hen : en ≠ '"')
    (consumed : Nat) (buffer key : Str) (acc : Params) :
    ppLoop sep en true ps ['"'] consumed buffer key false true acc =
      .ok (acc ++ [(key, some buffer)], consumed + 1) := by
  simp only [ppLoop]
  rw [if_neg (fun h => hen h.symm), if_neg (fun h => hsep h.symm)]
  rfl

theorem ppLoop_close_quote_sep (sep en : Char) (ps : Bool)
    (hsep : sep ≠ '"') (hen : en ≠ '"') (hne : sep ≠ en)
    (rest : Str) (consumed : Nat) (buffer key : Str) (acc : Params) :
    ppLoop sep en true ps ('"' :: sep :: rest) consumed buffer key false true acc =
      ppLoop sep en true ps rest (consumed + 2) [] key true false
        (acc ++ [(key, some buffer)]) := by
  have h1 : ¬('"' = en) := fun h => hen h.symm
  have h2 : ¬('"' = sep) := fun h => hsep h.symm
  have e : consumed + 2 = consumed + 1 + 1 := by omega
  rw [e]
  simp [ppLoop, h1, h2, hne]

theorem ppLoop_close_quote_bad (sep en : Char) (ps : Bool)
    (hsep : sep ≠ '"') (hen : en ≠ '"') (c : Char) (hc : c ≠ sep)
    (rest : Str) (consumed : Nat) (buffer key : Str) (acc : Params) :
    ppLoop sep en true ps ('"' :: c :: rest) consumed buffer key false true acc =
      .error .err := by
  have h1 : ¬('"' = en) := fun h => hen h.symm
  have h2 : ¬('"' = sep) := fun h => hsep h.symm
  simp [ppLoop, h1, h2, hc]

/-- The empty-line step of the header loop: flush and finish. -/
theorem chGo_blank_line (rest buffer : Str) (acc acc2 : List Header)
    (hfl : flushB buffer acc = .ok acc2) :
    chGo ('\r' :: '\n' :: rest) [] buffer acc = .ok (acc2, rest) := by
  cases rest with
  | nil => simp [chGo, hfl]
  | cons c t => simp [chGo, hfl]

/-- The new-header step of the header loop: flush, then buffer the line. -/
theorem chGo_new_header (rest : Str) (c : Char) (tl buffer : Str)
    (acc acc2 : List Header) (hc : isAbnfWs c = false)
    (hfl : flushB buffer acc = .ok acc2) :
    chGo ('\r' :: '\n' :: rest) (c :: tl) buffer acc =
      chGo rest [] (c :: tl) acc2 := by
  simp [chGo, hc, hfl]

/-- The continuation step of the header loop: append `" " + line`. -/
theorem chGo_continuation (rest : Str) (c : Char) (tl buffer : Str)
    (acc : List Header) (hc : isAbnfWs c = true) (hb : buffer ≠ []) :
    chGo ('\r' :: '\n' :: rest) (c :: tl) buffer acc =
      chGo rest [] (buffer ++ [' '] ++ (c :: tl)) acc := by
  simp [chGo, hc, hb]

/-! ## Theorems about the claims -/

/-- C3: in stream mode, once the header block of a message has been read, a
header set with zero `Content-Length` headers — or with more than one — makes
the framing loop emit a `MalformedMessage` on the error sink, set the terminal
error, and skip the message: the output sink receives nothing (the iteration's
events are exactly the one error). -/
theorem c3_stream_content_length_malformed
    (msg : SipMessage) (input : Str) (bodyLens : List (Nat × Nat))
    (termErr : Option ErrKind) (hdrs : List Header) (rest : Str)
    (hch : collectHeaders input = .ok (hdrs, rest))
    (hcl : (getHeadersCI (addHeaders msg hdrs) (str "Content-Length")).length = 0 ∨
           1 < (getHeadersCI (addHeaders msg hdrs) (str "Content-Length")).length) :
    afterStartLine true msg input bodyLens termErr =
      .step [.errEv .malformedMessage] ⟨rest, bodyLens, some .malformedMessage⟩ := by
  unfold afterStartLine
  rw [hch]
  rcases hcl with h | h
  · simp [h]
  · have h0 : (getHeadersCI (addHeaders msg hdrs) (str "Content-Length")).length ≠ 0 := by
      omega
    simp [h0, h]

/-- Witness for C3: a header block containing only `X-Custom: 1` has no
`Content-Length`, and the iteration emits exactly the fatal
`MalformedMessage`. -/
theorem c3_stream_content_length_malformed_witness :
    afterStartLine true (.response (str "SIP/2.0") 200 (str "OK") [] [])
        (str "X-Custom: 1\r\n\r\n") [] none =
      .step [.errEv .malformedMessage] ⟨[], [], some .malformedMessage⟩ := by
  exact c3_stream_content_length_malformed
    (.response (str "SIP/2.0") 200 (str "OK") [] [])
    (str "X-Custom: 1\r\n\r\n") [] none
    [.generic (str "X-Custom") (str "1")] [] rfl (Or.inl rfl)

/-- C9 (amended): every status code accepted by `ParseStatusLine` — hence
every status carried by a Response the framing loop builds — is merely a
base-10 unsigned 16-bit integer, i.e. lies in `[0, 65535]`; the code checks no
`[100, 699]` range. -/
theorem c9_status_bound (statusLine v reason : Str) (sc : Nat)
    (h : ParseStatusLine statusLine = .ok (v, sc, reason)) : sc < 65536 := by
  unfold ParseStatusLine at h
  dsimp only [] at h
  split at h
  · exact absurd h (by simp)
  · split at h
    · split at h
      · exact absurd h (by simp)
      · rename_i statusCode heq
        injection h with h'
        have hsc : sc = statusCode := by
          have h2 := congrArg (fun t => t.2.1) h'
          simpa using h2.symm
        exact hsc ▸ goParseUint_lt heq
    · exact absurd h (by simp)

/-- Witness for C9: the accepted status line `SIP/2.0 99 OK` yields 99, which
indeed only satisfies the 16-bit bound. -/
theorem c9_status_bound_witness : 99 < 65536 :=
  c9_status_bound (str "SIP/2.0 99 OK") (str "SIP/2.0") (str "OK") 99 rfl

/-- C10: the default map misses `call-id` / `authorization` /
`proxy-authorization` (its keys for those headers are the mixed-case
`"Call-ID"`, `"Authorization"`, `"Proxy-Authorization"`), so `ParseHeader`
with a nil parser falls back to a `GenericHeader` for those three names, for
every field text; a parser built by `NewParser`, whose registration lowercases
every key, dispatches the same lines to `parseCallId` / `parseAuthorization`.
The closing conjuncts show the divergence on `Call-ID: abc`. -/
theorem c10_registry_case :
    (regLookup defaultHeaderParsers (str "call-id")).isNone = true ∧
    (regLookup defaultHeaderParsers (str "authorization")).isNone = true ∧
    (regLookup defaultHeaderParsers (str "proxy-authorization")).isNone = true ∧
    (regLookup parserRegistry (str "call-id")).isSome = true ∧
    (regLookup parserRegistry (str "authorization")).isSome = true ∧
    (regLookup parserRegistry (str "proxy-authorization")).isSome = true ∧
    (∀ text : Str,
      ParseHeader (str "Call-ID" ++ ':' :: text) none =
        .ok [.generic (str "Call-ID") (goTrimSpace text)] ∧
      ParseHeader (str "Call-ID" ++ ':' :: text) (some parserRegistry) =
        parseCallId (str "call-id") (goTrimSpace text) ∧
      ParseHeader (str "Authorization" ++ ':' :: text) none =
        .ok [.generic (str "Authorization") (goTrimSpace text)] ∧
      ParseHeader (str "Authorization" ++ ':' :: text) (some parserRegistry) =
        parseAuthorization (str "authorization") (goTrimSpace text) ∧
      ParseHeader (str "Proxy-Authorization" ++ ':' :: text) none =
        .ok [.generic (str "Proxy-Authorization") (goTrimSpace text)] ∧
      ParseHeader (str "Proxy-Authorization" ++ ':' :: text) (some parserRegistry) =
        parseAuthorization (str "proxy-authorization") (goTrimSpace text)) ∧
    ParseHeader (str "Call-ID: abc") none =
      .ok [.generic (str "Call-ID") (str "abc")] ∧
    ParseHeader (str "Call-ID: abc") (some parserRegistry) =
      .ok [.callId (str "abc")] := by
  refine ⟨by decide, by decide, by decide, by decide, by decide, by decide,
    fun text => ⟨?_, ?_, ?_, ?_, ?_, ?_⟩, ?_, ?_⟩
  all_goals
    set_option maxHeartbeats 2000000 in rfl

/-- C5: CSeq parsing succeeds exactly when the header value whitespace-splits
(`SplitByWhitespace`) into two sections, the first parses as a base-10
unsigned 32-bit integer at most `2^31 − 1 = maxCseq`, and the method section
contains no `;`; on success the one returned `CSeq` header carries that
number and the (trimmed) method section. -/
theorem c5_cseq_characterisation (headerName headerText : Str) :
    ((parseCSeq headerName headerText).isOk = true ↔
      ∃ a b n, SplitByWhitespace headerText = [a, b] ∧
        goParseUint a 32 = .ok n ∧ n ≤ maxCseq ∧ b.contains ';' = false) ∧
    (∀ a b n, SplitByWhitespace headerText = [a, b] →
      goParseUint a 32 = .ok n → n ≤ maxCseq → b.contains ';' = false →
      parseCSeq headerName headerText = .ok [.cseq n (goTrimSpace b)]) := by
  have key : ∀ a b n, SplitByWhitespace headerText = [a, b] →
      goParseUint a 32 = .ok n → n ≤ maxCseq → b.contains ';' = false →
      parseCSeq headerName headerText = .ok [.cseq n (goTrimSpace b)] := by
    intro a b n hs hn hle hsemi
    unfold parseCSeq
    rw [hs]
    have h1 : ¬ maxCseq < n := by omega
    have h2 : ';' ∉ goTrimSpace b := by
      have h3 : (goTrimSpace b).contains ';' = false := by
        rw [contains_goTrimSpace b ';' (by decide)]
        exact hsemi
      simpa using h3
    simp [hn, h1, h2]
  refine ⟨⟨?_, ?_⟩, key⟩
  · intro h
    unfold parseCSeq at h
    dsimp only [] at h
    split at h
    · rename_i a b hs
      split at h
      · simp [Except.isOk, Except.toBool] at h
      · rename_i n hn
        split at h
        · simp [Except.isOk, Except.toBool] at h
        · rename_i hle
          split at h
          · simp [Except.isOk, Except.toBool] at h
          · rename_i hsemi
            refine ⟨a, b, n, hs, hn, by omega, ?_⟩
            rw [← contains_goTrimSpace b ';' (by decide)]
            simpa using hsemi
    · simp [Except.isOk, Except.toBool] at h
  · rintro ⟨a, b, n, hs, hn, hle, hsemi⟩
    rw [key a b n hs hn hle hsemi]
    rfl

/-- The wildcard-URI confinement invariant of §3 for a single header: To and
From never embed the wildcard URI; a wildcard Contact has no display name and
an empty parameter set. -/
def wildcardOk : Header → Prop
  | .toH _ address _ => address ≠ .wildcard
  | .fromH _ address _ => address ≠ .wildcard
  | .contact displayName address params =>
    address = .wildcard → displayName = none ∧ params = []
  | _ => True

theorem buildAddrHeaders_wildcardOk (name : Str) :
    ∀ (triples : List (Option Str × Uri × Params)) (idx : Nat) (hdrs : List Header),
      buildAddrHeaders name idx triples = .ok hdrs → ∀ h ∈ hdrs, wildcardOk h := by
  intro triples
  induction triples with
  | nil =>
    intro idx hdrs h
    unfold buildAddrHeaders at h
    injection h with h'
    subst h'
    intro x hx
    cases hx
  | cons t rest ih =>
    intro idx hdrs h
    obtain ⟨dn, uri, ps⟩ := t
    unfold buildAddrHeaders at h
    split at h
    · -- to / t
      split at h
      · exact absurd h (by simp)
      · split at h
        · exact absurd h (by simp)
        · split at h
          · exact absurd h (by simp)
          · rename_i u _ tl htl
            injection h with h'
            subst h'
            intro x hx
            rcases List.mem_cons.mp hx with hx | hx
            · subst hx
              simp [wildcardOk]
            · exact ih (idx + 1) tl htl x hx
    · split at h
      · -- from / f
        split at h
        · exact absurd h (by simp)
        · split at h
          · exact absurd h (by simp)
          · split at h
            · exact absurd h (by simp)
            · rename_i u _ tl htl
              injection h with h'
              subst h'
              intro x hx
              rcases List.mem_cons.mp hx with hx | hx
              · subst hx
                simp [wildcardOk]
              · exact ih (idx + 1) tl htl x hx
      · split at h
        · -- contact / m
          split at h
          · -- wildcard contact
            split at h
            · exact absurd h (by simp)
            · split at h
              · exact absurd h (by simp)
              · rename_i hps hdn
                split at h
                · exact absurd h (by simp)
                · rename_i tl htl
                  injection h with h'
                  subst h'
                  intro x hx
                  rcases List.mem_cons.mp hx with hx | hx
                  · subst hx
                    intro _
                    constructor
                    · simpa using hdn
                    · have : ps.length = 0 := by omega
                      exact List.length_eq_zero.mp this
                  · exact ih (idx + 1) tl htl x hx
          · -- sip contact
            split at h
            · exact absurd h (by simp)
            · rename_i u tl htl
              injection h with h'
              subst h'
              intro x hx
              rcases List.mem_cons.mp hx with hx | hx
              · subst hx
                simp [wildcardOk]
              · exact ih (idx + 1) tl htl x hx
        · -- other header names: empty result
          injection h with h'
          subst h'
          intro x hx
          cases hx

/-- C4: every header list `parseAddressHeader` returns satisfies the
wildcard-URI confinement invariant (offending header lines yield an error and
are dropped by the framing loop instead), and `ParseRequestLine` never returns
a wildcard request-URI. -/
theorem c4_wildcard_confinement :
    (∀ (name text : Str) (hdrs : List Header),
      parseAddressHeader name text = .ok hdrs → ∀ h ∈ hdrs, wildcardOk h) ∧
    (∀ (line m : Str) (r : Uri) (v : Str),
      ParseRequestLine line = .ok (m, r, v) → r ≠ .wildcard) := by
  constructor
  · intro name text hdrs h x hx
    unfold parseAddressHeader at h
    split at h
    · split at h
      · exact absurd h (by simp)
      · rename_i triples htr
        exact buildAddrHeaders_wildcardOk name triples 0 hdrs h x hx
    · injection h with h'
      subst h'
      cases hx
  · intro line m r v h
    unfold ParseRequestLine at h
    dsimp only [] at h
    split at h
    · exact absurd h (by simp)
    · split at h
      · split at h
        · exact absurd h (by simp)
        · split at h
          · exact absurd h (by simp)
          · rename_i u _
            injection h with h'
            have h2 := congrArg (fun t => t.2.1) h'
            simp only [] at h2
            rw [← h2]
            simp
      · exact absurd h (by simp)

/-- Witness for C4: the To header `<sip:a@b>` parses, its header satisfies
the invariant, and the request line `INVITE sip:a@b SIP/2.0` has a
non-wildcard recipient. -/
theorem c4_wildcard_confinement_witness :
    wildcardOk (.toH none
      (.sip ⟨false, some (str "a"), none, ⟨str "b", none⟩, [], []⟩) []) ∧
    Uri.sip ⟨false, some (str "a"), none, ⟨str "b", none⟩, [], []⟩ ≠ .wildcard := by
  constructor
  · exact c4_wildcard_confinement.1 (str "to") (str "<sip:a@b>")
      [.toH none (.sip ⟨false, some (str "a"), none, ⟨str "b", none⟩, [], []⟩) []]
      rfl _ (by simp)
  · exact c4_wildcard_confinement.2 (str "INVITE sip:a@b SIP/2.0") (str "INVITE")
      (.sip ⟨false, some (str "a"), none, ⟨str "b", none⟩, [], []⟩) (str "SIP/2.0") rfl

/-- C7: in datagram mode, when the start line fails classification or
sub-parsing, the iteration emits exactly one `InvalidStartLine` error, sets
the terminal error, pops exactly one `(body_length, total_frame_length)` pair,
and skips `total_frame_length − len(start_line) − 2` bytes; the concrete
two-datagram run shows the next well-formed datagram then parsing normally. -/
theorem c7_datagram_invalid_start_line :
    (∀ (input startLine rest : Str) (bl total : Nat) (q : List (Nat × Nat))
        (termErr : Option ErrKind),
      nextLine? input = some (startLine, rest) →
      startLineRes startLine = .error .err →
      startLine.length + 2 ≤ total →
      total - startLine.length - 2 ≤ rest.length →
      parseIter false ⟨input, (bl, total) :: q, termErr⟩ =
        .step [.errEv .invalidStartLine]
          ⟨rest.drop (total - startLine.length - 2), q, some .invalidStartLine⟩) ∧
    parseRun 3 false (mkState
        [str "HELLO WORLD\r\nContent-Length: 0\r\n\r\n",
         str "SIP/2.0 200 OK\r\nContent-Length: 0\r\n\r\n"]) =
      ([.errEv .invalidStartLine,
        .msgEv (.response (str "SIP/2.0") 200 (str "OK") [.contentLength 0] [])],
       ⟨[], [], some .invalidStartLine⟩, .blocked) := by
  constructor
  · intro input startLine rest bl total q termErr hline hres hge hle
    have hcond : (0 : Int) ≤ (total : Int) - startLine.length - 2 ∧
        (total : Int) - startLine.length - 2 ≤ (rest.length : Int) := by
      constructor <;> omega
    have htn : ((total : Int) - startLine.length - 2).toNat
        = total - startLine.length - 2 := by omega
    unfold parseIter
    simp only [hline, hres]
    simp [hcond, htn]
  · rfl

/-- The remainder of the post-scheme URI text after the optional user-info
part: everything past the first `@`, or the whole text when there is none. -/
def afterAt (s : Str) : Str :=
  match idxOf s '@' with
  | none => s
  | some i => s.drop (i + 1)

/-- The host[:port] section as the amended C6 reads: up to the first `;` if
one occurs anywhere in the remaining text, otherwise up to the first `?`,
otherwise the whole remaining text. -/
def amendedHostSection (s : Str) : Str :=
  match idxOf s ';' with
  | some i => s.take i
  | none =>
    match idxOf s '?' with
    | some i => s.take i
    | none => s

/-- The post-scheme remainder of a SIP/SIPS URI exactly as `ParseSipUri`
computes it: drop the three scheme letters, one more character when the
scheme continues with an `s` (i.e. `sips`), and the `:`. -/
def sipSchemeRest (uriStr : Str) : Str :=
  let s1 := uriStr.drop 3
  let s2 := if (match s1 with
                | c1 :: _ => lowerStr [c1] == str "s"
                | [] => false) = true
            then s1.drop 1 else s1
  s2.drop 1

theorem idxOf_lt_length {s : Str} {c : Char} {i : Nat}
    (h : idxOf s c = some i) : i < s.length := by
  induction s generalizing i with
  | nil => exact absurd h (by simp [idxOf])
  | cons a t ih =>
    simp only [idxOf] at h
    by_cases ha : a = c
    · rw [if_pos ha] at h
      injection h with h'
      simp [← h']
    · rw [if_neg ha] at h
      rcases Option.map_eq_some'.mp h with ⟨j, hj, hij⟩
      have := ih hj
      simp only [List.length_cons, ← hij]
      omega

theorem sipUriHostPhase_amended (enc : Bool) (user pass : Option Str)
    (s4 : Str) (u : SipUri) (h : sipUriHostPhase enc user pass s4 = .ok u) :
    ParseHostPort (amendedHostSection s4) =
      .ok (u.FDomain.Host, u.FDomain.Port) ∧
    parseUriParamsFrom (s4.drop (amendedHostSection s4).length) =
      .ok (u.FUriParams, u.FHeaders) := by
  unfold sipUriHostPhase at h
  dsimp only [] at h
  have heq : amendedHostSection s4 = s4.take
      (match idxOf s4 ';' with
       | some i => i
       | none =>
         match idxOf s4 '?' with
         | some i => i
         | none => s4.length) := by
    unfold amendedHostSection
    rcases idxOf s4 ';' with _ | i
    · rcases idxOf s4 '?' with _ | i
      · simp [List.take_length]
      · rfl
    · rfl
  have hdrop : s4.drop (amendedHostSection s4).length = s4.drop
      (match idxOf s4 ';' with
       | some i => i
       | none =>
         match idxOf s4 '?' with
         | some i => i
         | none => s4.length) := by
    rw [heq, List.length_take]
    rcases h1 : idxOf s4 ';' with _ | i
    · rcases h2 : idxOf s4 '?' with _ | i
      · simp
      · dsimp only []
        have := idxOf_lt_length h2
        congr 1
        omega
    · dsimp only []
      have := idxOf_lt_length h1
      congr 1
      omega
  rw [hdrop, heq]
  split at h
  · exact absurd h (by simp)
  · rename_i hp hph
    split at h
    · exact absurd h (by simp)
    · rename_i ph hph2
      injection h with h'
      constructor
      · rw [hph, ← h']
      · rw [hph2, ← h']

theorem sipUriAfterColon_amended (enc : Bool) (s3 : Str) (u : SipUri)
    (h : sipUriAfterColon enc s3 = .ok u) :
    ParseHostPort (amendedHostSection (afterAt s3)) =
      .ok (u.FDomain.Host, u.FDomain.Port) ∧
    parseUriParamsFrom ((afterAt s3).drop (amendedHostSection (afterAt s3)).length) =
      .ok (u.FUriParams, u.FHeaders) := by
  unfold sipUriAfterColon at h
  unfold afterAt
  rcases hat : idxOf s3 '@' with _ | endUI
  · rw [hat] at h
    exact sipUriHostPhase_amended _ _ _ _ _ h
  · rw [hat] at h
    dsimp only [] at h
    split at h
    · exact sipUriHostPhase_amended _ _ _ _ _ h
    · exact sipUriHostPhase_amended _ _ _ _ _ h

/-- C6 (amended): for every SIP or SIPS URI string accepted by `ParseSipUri`,
after the optional user-info part the host[:port] section handed to
`ParseHostPort` extends to the first `;` if one occurs anywhere in the
remaining text, otherwise to the first `?`, otherwise to the end of the
string — a `;` wins even when a `?` comes first, unlike the claim's
"whichever occurs first" — and the URI parameters and URI headers are parsed
starting at exactly that position. -/
theorem c6_host_section (uriStr : Str) (u : SipUri)
    (h : ParseSipUri uriStr = .ok u) :
    ParseHostPort (amendedHostSection (afterAt (sipSchemeRest uriStr))) =
      .ok (u.FDomain.Host, u.FDomain.Port) ∧
    parseUriParamsFrom ((afterAt (sipSchemeRest uriStr)).drop
        (amendedHostSection (afterAt (sipSchemeRest uriStr))).length) =
      .ok (u.FUriParams, u.FHeaders) := by
  unfold ParseSipUri at h
  split at h
  · exact absurd h (by simp)
  · split at h
    · exact absurd h (by simp)
    · dsimp only [] at h
      split at h
      · exact absurd h (by simp)
      · rename_i c1 t1 heq1
        split at h
        · exact absurd h (by simp)
        · rename_i c2 s3 heq2
          split at h
          · exact absurd h (by simp)
          · have hrest : sipSchemeRest uriStr = s3 := by
              unfold sipSchemeRest
              dsimp only []
              rw [heq1] at heq2 ⊢
              dsimp only []
              rw [heq2]
              rfl
            rw [hrest]
            exact sipUriAfterColon_amended _ s3 u h

/-- Witness for C6 (amended): the SIPS URI `sips:host;a=b` parses; its host
section is `host`, and the parameter phase starting right after it yields the
parameter `a=b` and no headers. -/
theorem c6_host_section_witness :
    ParseHostPort (amendedHostSection (afterAt (sipSchemeRest (str "sips:host;a=b")))) =
      .ok (str "host", none) ∧
    parseUriParamsFrom ((afterAt (sipSchemeRest (str "sips:host;a=b"))).drop
        (amendedHostSection (afterAt (sipSchemeRest (str "sips:host;a=b")))).length) =
      .ok ([(str "a", some (str "b"))], []) :=
  c6_host_section (str "sips:host;a=b")
    ⟨true, none, none, ⟨str "host", none⟩, [(str "a", some (str "b"))], []⟩ rfl

/-- C8 (amended): in `ParseParams` with `quote_values=true` — universally over
every separator/end configuration in which the delimiters are not themselves
the quote character (true of every call in the source), every enclosing scan
state and every quoted value — a closing double-quote of a quoted value is
accepted exactly when it is immediately followed by the `sep` byte or
end-of-text; any other following byte, the `end` byte included, fails the
parse.  The closing conjuncts instantiate the rule at the source's
URI-parameter configuration `(start=';', sep=';', end='?')`. -/
theorem c8_closing_quote :
    (∀ (sep en : Char) (ps : Bool), sep ≠ '"' → en ≠ '"' →
      ∀ (v : Str), (∀ c ∈ v, c ≠ '"' ∧ c ≠ '=') →
      ∀ (consumed : Nat) (key : Str) (acc : Params),
        (ppLoop sep en true ps ('"' :: (v ++ ['"'])) consumed [] key false false acc
          = .ok (acc ++ [(key, some v)], consumed + v.length + 2)) ∧
        (sep ≠ en → ∀ rest : Str,
          ppLoop sep en true ps ('"' :: (v ++ '"' :: sep :: rest)) consumed [] key
              false false acc
            = ppLoop sep en true ps rest (consumed + v.length + 3) [] key true false
                (acc ++ [(key, some v)])) ∧
        (∀ (c : Char) (rest : Str), c ≠ sep →
          ppLoop sep en true ps ('"' :: (v ++ '"' :: c :: rest)) consumed [] key
              false false acc
            = .error .err)) ∧
    ParseParams (str ";k=\"v\"") ';' ';' '?' true true =
      .ok ([(str "k", some (str "v"))], 6) ∧
    ParseParams (str ";k=\"v\";x") ';' ';' '?' true true =
      .ok ([(str "k", some (str "v")), (str "x", none)], 8) ∧
    (∀ (c : Char) (rest : Str), c ≠ ';' →
      ParseParams (str ";k=\"v\"" ++ c :: rest) ';' ';' '?' true true =
        .error .err) := by
  refine ⟨?_, rfl, rfl, ?_⟩
  · intro sep en ps hsep hen v hv consumed key acc
    refine ⟨?_, ?_, ?_⟩
    · rw [ppLoop_open_quote sep en ps hsep hen _ _ _ _,
        ppLoop_quoted_value sep en ps v hv ['"'] (consumed + 1) [] key acc,
        List.nil_append,
        ppLoop_close_quote_eot sep en ps hsep hen _ _ _ _,
        show consumed + 1 + v.length + 1 = consumed + v.length + 2 from by omega]
    · intro hne rest
      rw [ppLoop_open_quote sep en ps hsep hen _ _ _ _,
        ppLoop_quoted_value sep en ps v hv ('"' :: sep :: rest) (consumed + 1) [] key acc,
        List.nil_append,
        ppLoop_close_quote_sep sep en ps hsep hen hne _ _ _ _ _,
        show consumed + 1 + v.length + 2 = consumed + v.length + 3 from by omega]
    · intro c rest hc
      rw [ppLoop_open_quote sep en ps hsep hen _ _ _ _,
        ppLoop_quoted_value sep en ps v hv ('"' :: c :: rest) (consumed + 1) [] key acc,
        List.nil_append,
        ppLoop_close_quote_bad sep en ps hsep hen c hc _ _ _ _ _]
  · intro c rest hc
    have step : ParseParams (str ";k=\"v\"" ++ c :: rest) ';' ';' '?' true true
        = ppLoop ';' '?' true true ('"' :: c :: rest) 5 (str "v") (str "k")
            false true [] := rfl
    rw [step]
    unfold ppLoop
    simp [hc]

/-- Witness for C8: instantiating the general rule and the `ParseParams`
instance at the end byte `?` (distinct from `sep`), the parse fails. -/
theorem c8_closing_quote_witness :
    ppLoop ';' '?' true true ('"' :: (str "v" ++ '"' :: '?' :: str "x")) 4 []
        (str "k") false false [] = .error .err ∧
    ParseParams (str ";k=\"v\"" ++ '?' :: str "x") ';' ';' '?' true true =
      .error .err := by
  constructor
  · exact (c8_closing_quote.1 ';' '?' true (by decide) (by decide) (str "v")
      (by decide) 4 (str "k") []).2.2 '?' (str "x") (by decide)
  · exact c8_closing_quote.2.2.2 '?' (str "x") (by decide)

/-- Witness for C7: the invalid start line `HELLO WORLD` inside a 34-byte
datagram with body length 0: one `InvalidStartLine`, the pair popped, and
`34 − 11 − 2 = 21` bytes skipped. -/
theorem c7_datagram_invalid_start_line_witness :
    parseIter false ⟨str "HELLO WORLD\r\nContent-Length: 0\r\n\r\n", [(0, 34)], none⟩ =
      .step [.errEv .invalidStartLine] ⟨[], [], some .invalidStartLine⟩ := by
  have h := c7_datagram_invalid_start_line.1
    (str "HELLO WORLD\r\nContent-Length: 0\r\n\r\n") (str "HELLO WORLD")
    (str "Content-Length: 0\r\n\r\n") 0 34 [] none rfl rfl (by decide) (by decide)
  simpa using h

/-- Witness for C5: `CSeq: 314159 REGISTER` satisfies the characterisation
and parses to `CSeq{314159, REGISTER}`. -/
theorem c5_cseq_characterisation_witness :
    parseCSeq (str "cseq") (str "314159 REGISTER") =
      .ok [.cseq 314159 (str "REGISTER")] := by
  exact (c5_cseq_characterisation (str "cseq") (str "314159 REGISTER")).2
    (str "314159") (str "REGISTER") 314159 rfl rfl (by decide) (by decide)

/-- C1 (counterexample): for the header block `"Subject: foo\r\n bar\r\n"`
the framing loop produces one logical header named `Subject`, but its value is
`"foo  bar"` — with two spaces, since the loop appends `" " + line` and the
continuation line carries its own leading space — not `"foo bar"` as the
claim states. -/
theorem c1_counterexample :
    collectHeaders (str "Subject: foo\r\n bar\r\n\r\n") =
      .ok ([.generic (str "Subject") (str "foo  bar")], []) ∧
    str "foo  bar" ≠ str "foo bar" := by
  exact ⟨rfl, by decide⟩

/-- Behaviour of `ParseHeader` on a logical line `Subject:<suf>`: the lowercased name
`subject` is not registered, so the result is a `GenericHeader` named
`Subject` whose contents are the trimmed text after the colon. -/
theorem ParseHeader_subject (suf : Str) :
    ParseHeader (str "Subject:" ++ suf) (some parserRegistry) =
      .ok [.generic (str "Subject") (goTrimSpace suf)] := by
  set_option maxHeartbeats 2000000 in rfl

/-- C1 (amended): a header block consisting of the line `Subject: <v>`
followed by the continuation line `<space><w>` (with `v`, `w` nonempty and
whitespace-free) yields exactly one logical header, named `Subject`, whose
value is `v ++ "  " ++ w` — with TWO spaces, because the loop glues
`" " + line` and the continuation line keeps its own leading space. -/
theorem c1_subject_continuation (cv cw : Char) (tv tw : Str)
    (hv : ∀ c ∈ cv :: tv, goIsSpace c = false)
    (hw : ∀ c ∈ cw :: tw, goIsSpace c = false) :
    collectHeaders (str "Subject: " ++ (cv :: tv) ++ str "\r\n " ++ (cw :: tw)
        ++ str "\r\n\r\n") =
      .ok ([.generic (str "Subject")
        ((cv :: tv) ++ str "  " ++ (cw :: tw))], []) := by
  have hnr1 : ∀ c ∈ str "Subject: " ++ (cv :: tv), c ≠ '\r' := by
    intro c hc
    rcases List.mem_append.mp hc with hm | hm
    · revert hm
      have h9 : str "Subject: " = ['S', 'u', 'b', 'j', 'e', 'c', 't', ':', ' '] := rfl
      rw [h9]
      intro hm
      simp at hm
      rcases hm with rfl | rfl | rfl | rfl | rfl | rfl | rfl | rfl | rfl <;> decide
    · have h5 := hv c hm
      intro hEq
      rw [hEq] at h5
      exact absurd h5 (by decide)
  have hnr2 : ∀ c ∈ ' ' :: (cw :: tw), c ≠ '\r' := by
    intro c hc
    rcases List.mem_cons.mp hc with hm | hm
    · subst hm; decide
    · have h5 := hw c hm
      intro hEq
      rw [hEq] at h5
      exact absurd h5 (by decide)
  have e1 : str "Subject: " ++ (cv :: tv) ++ str "\r\n " ++ (cw :: tw) ++ str "\r\n\r\n"
      = (str "Subject: " ++ (cv :: tv)) ++
          '\r' :: '\n' :: ((' ' :: (cw :: tw)) ++ '\r' :: '\n' :: '\r' :: '\n' :: []) := by
    simp [List.append_assoc]
    rfl
  unfold collectHeaders
  rw [e1, chGo_scan _ hnr1 _ _ _ _ _, List.nil_append]
  have e2 : str "Subject: " ++ (cv :: tv) = 'S' :: (str "ubject: " ++ (cv :: tv)) := rfl
  rw [e2, chGo_new_header _ 'S' _ [] [] [] (by decide) rfl]
  rw [chGo_scan _ hnr2 _ _ _ _ _, List.nil_append]
  rw [chGo_continuation _ ' ' _ _ [] (by decide) (by simp)]
  have hfl2 : flushB (('S' :: (str "ubject: " ++ (cv :: tv))) ++ [' '] ++ (' ' :: (cw :: tw))) []
      = .ok [.generic (str "Subject") ((cv :: tv) ++ ' ' :: ' ' :: (cw :: tw))] := by
    have e4 : ('S' :: (str "ubject: " ++ (cv :: tv))) ++ [' '] ++ (' ' :: (cw :: tw))
        = str "Subject:" ++ (' ' :: ((cv :: tv) ++ ' ' :: ' ' :: (cw :: tw))) := by
      simp only [List.cons_append, List.append_assoc]
      rfl
    unfold flushB
    rw [if_pos (by simp), e4, ParseHeader_subject]
    rw [goTrimSpace_cons_space, goTrimSpace_value cv cw tv tw (hv cv (by simp)) hw]
    simp
  rw [chGo_blank_line _ _ _ _ hfl2]
  simp [List.append_assoc]
  rfl

/-- Witness for C1 (amended): the block `Subject: foo\r\n bar\r\n` yields the
single header `Subject: foo  bar` (two spaces), and the remaining input is
untouched. -/
theorem c1_subject_continuation_witness :
    collectHeaders (str "Subject: " ++ (str "foo") ++ str "\r\n " ++ (str "bar")
        ++ str "\r\n\r\n") =
      .ok ([.generic (str "Subject") (str "foo" ++ str "  " ++ str "bar")], []) := by
  exact c1_subject_continuation 'f' 'b' (str "oo") (str "ar")
    (by decide) (by decide)

/-- C2 (code bug): an address segment containing `<` with no subsequent `>`
makes `ParseAddressValue` panic — `strings.Index` returns `-1`, only
`endOfUri == 0` is guarded, and `addressText[:-1]` is an out-of-bounds slice —
instead of returning the error its own message (`'<' without closing '>'`)
and the spec describe. -/
theorem c2_missing_gt_panics :
    ParseAddressValue (str "<sip:a@b") = .error .panic := rfl

/-- C6 (counterexample): in `ParseSipUri "sip:host?a=b;c=d"` the `?` comes
before the `;`, yet the parsed host is `"host?a=b"` — the code ends the host
section at the first `;` whenever one exists anywhere, not at the first of
`;`/`?` as the claim states (which would give host `"host"`). -/
theorem c6_counterexample :
    ParseSipUri (str "sip:host?a=b;c=d") =
      .ok ⟨false, none, none, ⟨str "host?a=b", none⟩,
        [(str "c", some (str "d"))], []⟩ ∧
    str "host?a=b" ≠ str "host" := by
  exact ⟨rfl, by decide⟩

/-- C8 (counterexample): with `quote_values=true` and `end='?'`, a closing
double-quote immediately followed by the end byte `?` is rejected by
`ParseParams` (the code accepts a closing quote only before `sep` or at
end-of-text), contradicting the claim that the end byte is also accepted
there; the same value followed by `sep` parses fine. -/
theorem c8_counterexample :
    ParseParams (str ";k=\"v\"?x") ';' ';' '?' true true = .error .err ∧
    ParseParams (str ";k=\"v\";x") ';' ';' '?' true true =
      .ok ([(str "k", some (str "v")), (str "x", none)], 8) := by
  exact ⟨rfl, rfl⟩

/-- C9 (counterexample): the datagram `"SIP/2.0 99 OK\r\n\r\n"` is
response-like and `ParseStatusLine` accepts any unsigned 16-bit status, so the
parser emits a `Response` whose status code 99 lies outside `[100, 699]`. -/
theorem c9_counterexample :
    parseRun 2 false (mkState [str "SIP/2.0 99 OK\r\n\r\n"]) =
      ([.msgEv (.response (str "SIP/2.0") 99 (str "OK") [] [])],
        ⟨[], [], none⟩, .blocked) ∧ 99 < 100 := by
  exact ⟨rfl, by decide⟩

end Gsip
